import Mathlib

/-!
Verification of the stock-behavior analysis repository
(`analyzer/data_cleaner.py`, `analyzer/analyze_from_file.py`).

The Python code is shallowly embedded: pandas rows become Lean structures,
missing values (NaN/NaT) become `Option`, exact float arithmetic on the
data becomes `ℚ`.  Comparisons against a missing value are `false`, as in
pandas/NumPy.
-/

namespace StockAnalysis

/-! ### Feature rows consumed by the behavior classifier

`detect_investor_behavior` (analyze_from_file.py, lines 70–140) reads three
feature columns: `Price_Change_Pct`, `Volume_Zscore` and `Volatility`.
`Price_Change_Pct` and `Volatility` may be NaN at series boundaries
(`Option`); `Volume_Zscore` is always defined after `fillna(0)`. -/

structure FRow where
  pcp : Option ℚ
  vz : ℚ
  vol : Option ℚ
  deriving DecidableEq

/-- `some x < q` in float semantics; a comparison with NaN is `false`. -/
def oLt (a : Option ℚ) (q : ℚ) : Bool :=
  match a with
  | some x => decide (x < q)
  | none => false

/-- `some x > q` in float semantics; a comparison with NaN is `false`. -/
def oGt (a : Option ℚ) (q : ℚ) : Bool :=
  match a with
  | some x => decide (q < x)
  | none => false

/-- `abs (some x) < q` in float semantics; `abs NaN = NaN`, so `false`. -/
def oAbsLt (a : Option ℚ) (q : ℚ) : Bool :=
  match a with
  | some x => decide (|x| < q)
  | none => false

/-- Panic-Selling mask (analyze_from_file.py lines 89–93). -/
def panicMask (r : FRow) : Bool :=
  oLt r.pcp (-2.5) && decide (r.vz > 1.5) && oGt r.vol 2.0

/-- FOMO-Buying mask (lines 102–106). -/
def fomoMask (r : FRow) : Bool :=
  oGt r.pcp 2.5 && decide (r.vz > 1.5) && oGt r.vol 1.5

/-- Overconfidence mask (lines 115–119). -/
def overMask (r : FRow) : Bool :=
  oAbsLt r.pcp 1.0 && decide (r.vz > 2.0) && oGt r.vol 1.8

/-- Panic raw confidence (lines 95–99); the score is only ever read on rows
where the mask holds, where `pcp` and `vol` are defined, so `getD 0` is
unobservable. -/
def panicScore (r : FRow) : ℚ :=
  |r.pcp.getD 0| / 10 + r.vz / 5 + r.vol.getD 0 / 10

/-- FOMO raw confidence (lines 108–112). -/
def fomoScore (r : FRow) : ℚ :=
  r.pcp.getD 0 / 10 + r.vz / 5 + r.vol.getD 0 / 10

/-- Overconfidence raw confidence (lines 121–124). -/
def overScore (r : FRow) : ℚ :=
  r.vz / 5 + r.vol.getD 0 / 10

/-- One `(mask, label, score)` rule of the classifier. -/
structure Rule where
  mask : FRow → Bool
  label : String
  score : FRow → ℚ

def panicRule : Rule := ⟨panicMask, "Panic Selling", panicScore⟩

def fomoRule : Rule := ⟨fomoMask, "FOMO Buying", fomoScore⟩

def overRule : Rule := ⟨overMask, "Overconfidence", overScore⟩

/-- Applying one masked assignment: a matching rule overwrites the current
`(Behavior, Confidence_Score)` pair, a non-matching one leaves it. -/
def applyRule (r : FRow) (acc : String × ℚ) (rule : Rule) : String × ℚ :=
  if rule.mask r then (rule.label, rule.score r) else acc

/-- Sequential application of the masked assignments, starting from the
`df['Behavior'] = 'Normal'; df['Confidence_Score'] = 0.0` initialisation. -/
def applyRules (rules : List Rule) (r : FRow) : String × ℚ :=
  rules.foldl (applyRule r) ("Normal", 0)

/-- Per-row classification in the source's fixed order:
Panic Selling, then FOMO Buying, then Overconfidence. -/
def classifyRow (r : FRow) : String × ℚ :=
  applyRules [panicRule, fomoRule, overRule] r

/-- `df['Confidence_Score'].max()` — `none` for an empty frame (pandas NaN). -/
def maxScore (scored : List (String × ℚ)) : Option ℚ :=
  match scored.map Prod.snd with
  | [] => none
  | x :: xs => some (xs.foldl max x)

/-- `detect_investor_behavior` (lines 70–140): classify every row, then
normalise the whole batch of confidence scores when the maximum is
positive (`(score / max) * 100`). -/
def detect_investor_behavior (rows : List FRow) : List (String × ℚ) :=
  let scored := rows.map classifyRow
  match maxScore scored with
  | some m => if 0 < m then scored.map (fun p => (p.1, p.2 / m * 100)) else scored
  | none => scored

/-! ### Data-cleaning pipeline (`data_cleaner.py`)

Rows enter the pipeline after `fix_data_types`: `Date` is a calendar date
(embedded as `ℤ`, the ordering is all that matters) and the five numeric
columns are `ℚ`; any value `pd.to_datetime` / `pd.to_numeric` could not
parse is `none` (NaN/NaT). -/

structure Row where
  date : Option ℤ
  Open : Option ℚ
  High : Option ℚ
  Low : Option ℚ
  Close : Option ℚ
  Volume : Option ℚ
  deriving DecidableEq

/-- A fully defined row, as produced by the `dropna()` that ends
`handle_missing_values`. -/
structure CRow where
  date : ℤ
  Open : ℚ
  High : ℚ
  Low : ℚ
  Close : ℚ
  Volume : ℚ
  deriving DecidableEq

instance : Inhabited Row := ⟨⟨none, none, none, none, none, none⟩⟩

instance : Inhabited CRow := ⟨⟨0, 0, 0, 0, 0, 0⟩⟩

def toRow (r : CRow) : Row :=
  ⟨some r.date, some r.Open, some r.High, some r.Low, some r.Close, some r.Volume⟩

/-- `dropna` keeps a row exactly when every cell is defined. -/
def toCRow (r : Row) : Option CRow :=
  match r.date, r.Open, r.High, r.Low, r.Close, r.Volume with
  | some d, some o, some h, some l, some c, some v => some ⟨d, o, h, l, c, v⟩
  | _, _, _, _, _, _ => none

/-- `row.isnull().sum()` over the six columns. -/
def rowNulls (r : Row) : ℕ :=
  (if r.date = none then 1 else 0) + (if r.Open = none then 1 else 0) +
    (if r.High = none then 1 else 0) + (if r.Low = none then 1 else 0) +
    (if r.Close = none then 1 else 0) + (if r.Volume = none then 1 else 0)

/-- `df.isnull().sum().sum()`. -/
def nullCount (rs : List Row) : ℕ := (rs.map rowNulls).sum

/-- The pipeline's report accumulator (`self.cleaning_report`). -/
structure Report where
  totalRowsOriginal : ℕ
  totalRowsCleaned : ℕ
  missingFound : ℕ
  missingHandled : ℕ
  outliersDetected : ℕ
  outliersRemoved : ℕ
  duplicatesFound : ℕ
  duplicatesRemoved : ℕ
  score : ℚ
  deriving DecidableEq

/-- Fresh report; `total_rows_original` was recorded by `load_data`. -/
def initReport (orig : ℕ) : Report := ⟨orig, 0, 0, 0, 0, 0, 0, 0, 0⟩

/-- Forward-fill state: the last known value of each price column. -/
structure FState where
  o : Option ℚ
  h : Option ℚ
  l : Option ℚ
  c : Option ℚ

/-- The `strategy='forward_fill'` body (data_cleaner.py lines 128–137):
`ffill()` on each of `Open, High, Low, Close` and `fillna(0)` on `Volume`.
The columnwise pandas operations are fused into one left-to-right pass. -/
def ffillRows (st : FState) : List Row → List Row
  | [] => []
  | r :: rs =>
    let o := r.Open.orElse fun _ => st.o
    let h := r.High.orElse fun _ => st.h
    let l := r.Low.orElse fun _ => st.l
    let c := r.Close.orElse fun _ => st.c
    ⟨r.date, o, h, l, c, some (r.Volume.getD 0)⟩ :: ffillRows ⟨o, h, l, c⟩ rs

/-- `handle_missing_values` (lines 97–164), `forward_fill` strategy: count the
missing cells, fill, then `dropna()` any row that still has a missing cell.
The source's early return when no cell is missing returns the same frame this
computation does, and `missing_after` is `0` because of the final `dropna`. -/
def handle_missing_values (rs : List Row) (rep : Report) : List CRow × Report :=
  let totalMissing := nullCount rs
  let out := (ffillRows ⟨none, none, none, none⟩ rs).filterMap toCRow
  (out, { rep with missingFound := totalMissing, missingHandled := totalMissing })

/-- `df.drop_duplicates(subset=['Date'], keep='first')` (lines 223–250): a row
survives exactly when its date has not occurred earlier. -/
def dedupByDate (seen : List ℤ) : List CRow → List CRow
  | [] => []
  | r :: rs =>
    if r.date ∈ seen then dedupByDate seen rs
    else r :: dedupByDate (r.date :: seen) rs

/-- `handle_duplicates`: the number of rows `duplicated()` marks equals the
number of rows dropped. -/
def handle_duplicates (df : List CRow) (rep : Report) : List CRow × Report :=
  let deduped := dedupByDate [] df
  let numDup := df.length - deduped.length
  (deduped, { rep with duplicatesFound := numDup, duplicatesRemoved := numDup })

/-- `Series.quantile(q)` with pandas' default linear interpolation: on the
sorted values `v_0 … v_{n-1}`, `h = q(n-1)`, result
`v_⌊h⌋ + (h - ⌊h⌋)(v_{⌊h⌋+1} - v_⌊h⌋)`; `none` on an empty series (NaN). -/
def quantileQ (xs : List ℚ) (q : ℚ) : Option ℚ :=
  let s := List.insertionSort (fun a b : ℚ => a ≤ b) xs
  if s.length = 0 then none
  else
    let n := s.length
    let h : ℚ := q * ((n : ℚ) - 1)
    let i : ℕ := (Rat.floor h).toNat
    let lo := s.getD i 0
    let hi := s.getD (min (i + 1) (n - 1)) 0
    some (lo + (h - (i : ℚ)) * (hi - lo))

/-- The five numeric columns scanned by `detect_outliers`. -/
def colFuns : List (CRow → ℚ) := [CRow.Open, CRow.High, CRow.Low, CRow.Close, CRow.Volume]

/-- One column's IQR test (lines 184–192): flag row `i` when its value falls
below `Q1 - k·IQR` or above `Q3 + k·IQR`. -/
def flaggedByCol (df : List CRow) (k : ℚ) (f : CRow → ℚ) (i : ℕ) : Bool :=
  match quantileQ (df.map f) 0.25, quantileQ (df.map f) 0.75 with
  | some q1, some q3 =>
    let iqr := q3 - q1
    let v := f (df.getD i default)
    decide (v < q1 - k * iqr) || decide (q3 + k * iqr < v)
  | _, _ => false

/-- `detect_outliers(df, method='iqr', threshold=k)` (lines 166–208): the
union over the five columns of each column's flagged row indices.  The
source collects a Python set of frame-index labels; positions stand in for
labels (the two agree on how `remove_outliers` consumes them). -/
def detect_outliers (df : List CRow) (k : ℚ) : List ℕ :=
  (List.range df.length).filter fun i => colFuns.any fun f => flaggedByCol df k f i

/-- `df.drop(outlier_indices)` (lines 210–221). -/
def remove_outliers (df : List CRow) (idxs : List ℕ) : List CRow :=
  (df.enum.filter fun p => !(idxs.contains p.1)).map Prod.snd

def invalidHLCount (df : List CRow) : ℕ :=
  (df.filter fun r => decide (r.High < r.Low)).length

def invalidCloseCount (df : List CRow) : ℕ :=
  (df.filter fun r => decide (r.High < r.Close) || decide (r.Close < r.Low)).length

def invalidOpenCount (df : List CRow) : ℕ :=
  (df.filter fun r => decide (r.High < r.Open) || decide (r.Open < r.Low)).length

def negVolumeCount (df : List CRow) : ℕ :=
  (df.filter fun r => decide (r.Volume < 0)).length

def msgHL (df : List CRow) : String :=
  "High < Low in " ++ toString (invalidHLCount df) ++ " rows"

def msgClose (df : List CRow) : String :=
  "Close outside High-Low range in " ++ toString (invalidCloseCount df) ++ " rows"

def msgOpen (df : List CRow) : String :=
  "Open outside High-Low range in " ++ toString (invalidOpenCount df) ++ " rows"

def msgVol (df : List CRow) : String :=
  "Negative volume in " ++ toString (negVolumeCount df) ++ " rows"

/-- The four read-only checks of `validate_price_logic` (lines 252–295). -/
def priceIssues (df : List CRow) : List String :=
  (if 0 < invalidHLCount df then [msgHL df] else []) ++
    (if 0 < invalidCloseCount df then [msgClose df] else []) ++
    (if 0 < invalidOpenCount df then [msgOpen df] else []) ++
    (if 0 < negVolumeCount df then [msgVol df] else [])

/-- `validate_price_logic` returns `(ok?, issues)` and reads the frame only. -/
def validate_price_logic (df : List CRow) : Bool × List String :=
  let issues := priceIssues df
  (issues.isEmpty, issues)

/-- Date order used by `sort_by_date`. -/
def dateLe (a b : CRow) : Prop := a.date ≤ b.date

instance : DecidableRel dateLe := fun a b => inferInstanceAs (Decidable (a.date ≤ b.date))

instance : IsTotal CRow dateLe := ⟨fun a b => le_total a.date b.date⟩

instance : IsTrans CRow dateLe := ⟨fun _ _ _ hab hbc => le_trans hab hbc⟩

/-- `df.sort_values('Date')` (lines 319–325); on the date-unique frames the
pipeline sorts, every comparison sort returns the same list. -/
def sort_by_date (df : List CRow) : List CRow := List.insertionSort dateLe df

/-- `calculate_quality_score` (lines 327–347).  The missing-value deduction is
computed from the nulls of the frame **passed in** (the cleaned frame), not
from the report's handled-missing count.  An empty frame gives a `0/0 = NaN`
ratio in pandas, and `max(0, min(100, NaN))` evaluates to `100` in Python. -/
def calculate_quality_score (df : List Row) (rep : Report) : ℚ :=
  if df.length = 0 then 100
  else
    let missingRatio : ℚ := (nullCount df : ℚ) / ((df.length : ℚ) * 6)
    let duplicateRatio : ℚ := (rep.duplicatesRemoved : ℚ) / ((max rep.totalRowsOriginal 1 : ℕ) : ℚ)
    let outlierRatio : ℚ := (rep.outliersRemoved : ℚ) / ((max rep.totalRowsOriginal 1 : ℕ) : ℚ)
    max 0 (min 100 (100 - missingRatio * 30 - duplicateRatio * 20 - outlierRatio * 15))

/-- `quality_score_spec` — *modelled from the spec's words, for comparison
only*: `100 − 30·(missing handled / total cells) − 20·(duplicates removed /
original rows) − 15·(outliers removed / original rows)`, clamped to `[0,100]`,
every fraction relative to the original counts. -/
def quality_score_spec (missingHandled totalCells duplicatesRemoved outliersRemoved origRows : ℕ) : ℚ :=
  max 0 (min 100 (100 - (missingHandled : ℚ) / (totalCells : ℚ) * 30 -
    (duplicatesRemoved : ℚ) / (origRows : ℚ) * 20 - (outliersRemoved : ℚ) / (origRows : ℚ) * 15))

/-- Steps 5 of `clean_pipeline` (lines 418–422): always detect, remove only
when requested and non-empty. -/
def outlierStage (flag : Bool) (df : List CRow) (rep : Report) : List CRow × Report :=
  let idxs := detect_outliers df 3
  let rep2 := { rep with outliersDetected := idxs.length }
  if flag && decide (0 < idxs.length) then
    (remove_outliers df idxs, { rep2 with outliersRemoved := idxs.length })
  else (df, rep2)

/-- `clean_pipeline` (lines 387–441) after a successful schema validation:
types are already fixed in `Row`, then missing-value handling, duplicate
removal, outlier detection/removal, the price-logic validation (whose result
is only printed), the chronological sort, and the final report fields. -/
def clean_pipeline (flag : Bool) (origRows : ℕ) (rs : List Row) : List CRow × Report :=
  let s3 := handle_missing_values rs (initReport origRows)
  let s4 := handle_duplicates s3.1 s3.2
  let s5 := outlierStage flag s4.1 s4.2
  let _pv := validate_price_logic s5.1
  let sorted := sort_by_date s5.1
  let rep := { s5.2 with totalRowsCleaned := sorted.length }
  (sorted, { rep with score := calculate_quality_score (sorted.map toRow) rep })

/-- `clean_pipeline` with the price-logic validation stage deleted; used to
state that the validator neither mutates the data nor halts the pipeline. -/
def clean_pipeline_no_validate (flag : Bool) (origRows : ℕ) (rs : List Row) : List CRow × Report :=
  let s3 := handle_missing_values rs (initReport origRows)
  let s4 := handle_duplicates s3.1 s3.2
  let s5 := outlierStage flag s4.1 s4.2
  let sorted := sort_by_date s5.1
  let rep := { s5.2 with totalRowsCleaned := sorted.length }
  (sorted, { rep with score := calculate_quality_score (sorted.map toRow) rep })

/-! ### Volume z-score of the feature engine (`analyze_from_file.py` 38–44)

`Volume_Std` is a 20-period rolling **sample** standard deviation with
`min_periods=1`; with a single sample `ddof=1` yields NaN.  IEEE float
division then gives NaN for `0/0` and `±inf` for `x/0`, `x ≠ 0`; `fillna(0)`
replaces only NaN.  `PF` classifies such a float exactly as far as any claim
observes it: `fin num sd2` denotes the finite value `num / √sd2` with
`sd2 > 0` — the magnitude of the square root is never observed, so the pair
`(num, sd2)` represents it exactly. -/

inductive PF where
  | nan : PF
  | pinf : PF
  | ninf : PF
  | fin : ℚ → ℚ → PF
  deriving DecidableEq

def PF.isFinite : PF → Bool
  | .fin _ _ => true
  | _ => false

/-- The rolling window of the last `min(t+1, 20)` volumes ending at row `t`. -/
def rollWindow (vols : List ℚ) (t : ℕ) : List ℚ := (vols.take (t + 1)).drop (t + 1 - 20)

def wmean (w : List ℚ) : ℚ := w.sum / (w.length : ℚ)

/-- Numerator of the sample variance: `Σ (x - mean)²`. -/
def wvarNum (w : List ℚ) : ℚ := (w.map fun x => (x - wmean w) ^ 2).sum

/-- Sample variance (`ddof=1`) of the rolling window; `none` (NaN) when the
window holds fewer than two samples. -/
def volume_var (vols : List ℚ) (t : ℕ) : Option ℚ :=
  let w := rollWindow vols t
  if w.length < 2 then none else some (wvarNum w / ((w.length : ℚ) - 1))

/-- `(df['Volume'] - df['Volume_Mean']) / df['Volume_Std']` at row `t`, in
float semantics: NaN std gives NaN; zero std gives NaN for a zero numerator
and a signed infinity otherwise; a positive variance gives the finite value
`num / √var`, recorded as `fin num var`. -/
def volume_zscore_raw (vols : List ℚ) (t : ℕ) : PF :=
  match volume_var vols t with
  | none => .nan
  | some var =>
    let num := vols.getD t 0 - wmean (rollWindow vols t)
    if var = 0 then (if num = 0 then .nan else if 0 < num then .pinf else .ninf)
    else .fin num var

/-- `df['Volume_Zscore'].fillna(0)` — only NaN becomes `0`. -/
def volume_zscore (vols : List ℚ) (t : ℕ) : PF :=
  match volume_zscore_raw vols t with
  | .nan => .fin 0 1
  | x => x

/-- Fold that keeps the most recent defined value of a column; over a prefix
of the `Close` column this is the value `ffill` substitutes for a missing
cell. -/
def lastKnownFrom (init : Option ℚ) (l : List (Option ℚ)) : Option ℚ :=
  l.foldl (fun acc b => b.orElse fun _ => acc) init

/-- The last defined value of a column prefix, if any. -/
def lastKnown (l : List (Option ℚ)) : Option ℚ := lastKnownFrom none l

/-! ### Concrete datasets used by the scenario claims -/

/-- The spec's IQR scenario: ten rows whose `High` column is
`[102,104,106,107,500,109,112,110,114,117]`; the other numeric columns carry
the same values, so every column flags exactly row 4. -/
def sample10 : List CRow :=
  [⟨0, 102, 102, 102, 102, 102⟩, ⟨1, 104, 104, 104, 104, 104⟩, ⟨2, 106, 106, 106, 106, 106⟩,
    ⟨3, 107, 107, 107, 107, 107⟩, ⟨4, 500, 500, 500, 500, 500⟩, ⟨5, 109, 109, 109, 109, 109⟩,
    ⟨6, 112, 112, 112, 112, 112⟩, ⟨7, 110, 110, 110, 110, 110⟩, ⟨8, 114, 114, 114, 114, 114⟩,
    ⟨9, 117, 117, 117, 117, 117⟩]

/-- Four benign rows with one missing `Close` cell (row 2): one missing value
is found and handled, no duplicates, no outliers. -/
def sampleC1 : List Row :=
  [⟨some 1, some 100, some 102, some 99, some 101, some 1000⟩,
    ⟨some 2, some 102, some 104, some 101, some 103, some 1100⟩,
    ⟨some 3, some 103, some 106, some 103, none, some 1200⟩,
    ⟨some 4, some 105, some 107, some 104, some 106, some 1300⟩]

/-- Two rows violating `High ≥ Low` (and hence the open/close range checks). -/
def badSample : List CRow := [⟨1, 10, 10, 11, 10, 100⟩, ⟨2, 10, 10, 11, 10, 100⟩]

/-- Ten complete rows except for a missing `Close` at index 2;
`Close[1] = 103`. -/
def sampleC6 : List Row :=
  [⟨some 0, some 100, some 102, some 99, some 101, some 1000⟩,
    ⟨some 1, some 102, some 104, some 101, some 103, some 1100⟩,
    ⟨some 2, some 103, some 106, some 103, none, some 1200⟩,
    ⟨some 3, some 105, some 107, some 104, some 106, some 1300⟩,
    ⟨some 4, some 104, some 105, some 102, some 104, some 1250⟩,
    ⟨some 5, some 106, some 109, some 106, some 108, some 1500⟩,
    ⟨some 6, some 109, some 112, some 109, some 111, some 1400⟩,
    ⟨some 7, some 108, some 110, some 107, some 109, some 1600⟩,
    ⟨some 8, some 111, some 114, some 111, some 113, some 1700⟩,
    ⟨some 9, some 114, some 117, some 114, some 116, some 1800⟩]

/-- Three rows whose first row misses `Open`: forward fill has no predecessor
there, so the final `dropna` removes that row. -/
def sampleDropFirst : List Row :=
  [⟨some 0, none, some 102, some 99, some 101, some 1000⟩,
    ⟨some 1, some 102, some 104, some 101, some 103, some 1100⟩,
    ⟨some 2, some 103, some 106, some 103, some 105, some 1200⟩]

/-- Three rows whose middle row misses all four price columns: each of
`Open, High, Low, Close` forward-fills from row 0. -/
def samplePriceGaps : List Row :=
  [⟨some 0, some 10, some 12, some 9, some 11, some 100⟩,
    ⟨some 1, none, none, none, none, some 110⟩,
    ⟨some 2, some 11, some 13, some 10, some 12, some 120⟩]

/-! ### Helper lemmas for the classifier -/

theorem oLt_eq_true {a : Option ℚ} {q : ℚ} : oLt a q = true ↔ ∃ x, a = some x ∧ x < q := by
  cases a <;> simp [oLt]

theorem oGt_eq_true {a : Option ℚ} {q : ℚ} : oGt a q = true ↔ ∃ x, a = some x ∧ q < x := by
  cases a <;> simp [oGt]

theorem oAbsLt_eq_true {a : Option ℚ} {q : ℚ} : oAbsLt a q = true ↔ ∃ x, a = some x ∧ |x| < q := by
  cases a <;> simp [oAbsLt]

theorem le_foldl_max (a : ℚ) (l : List ℚ) : a ≤ l.foldl max a := by
  induction l generalizing a with
  | nil => exact le_refl a
  | cons x xs ih => exact le_trans (le_max_left a x) (ih (max a x))

theorem mem_le_foldl_max {x : ℚ} {l : List ℚ} (a : ℚ) (hx : x ∈ l) : x ≤ l.foldl max a := by
  induction l generalizing a with
  | nil => cases hx
  | cons y ys ih =>
    rcases List.mem_cons.mp hx with h | h
    · subst h
      exact le_trans (le_max_right a x) (le_foldl_max (max a x) ys)
    · exact ih (max a y) h

/-- The sequential masked assignments amount to a last-match-wins cascade. -/
theorem classifyRow_cases (r : FRow) :
    classifyRow r =
      if overMask r then ("Overconfidence", overScore r)
      else if fomoMask r then ("FOMO Buying", fomoScore r)
      else if panicMask r then ("Panic Selling", panicScore r)
      else ("Normal", 0) := by
  simp only [classifyRow, applyRules, List.foldl, applyRule, panicRule, fomoRule, overRule]

theorem panicMask_facts {r : FRow} (h : panicMask r = true) :
    ∃ p v, r.pcp = some p ∧ r.vol = some v ∧ p < -2.5 ∧ 1.5 < r.vz ∧ 2.0 < v := by
  simp only [panicMask, Bool.and_eq_true, decide_eq_true_eq] at h
  obtain ⟨⟨h1, h2⟩, h3⟩ := h
  obtain ⟨p, hp, hplt⟩ := oLt_eq_true.mp h1
  obtain ⟨v, hv, hvgt⟩ := oGt_eq_true.mp h3
  exact ⟨p, v, hp, hv, hplt, h2, hvgt⟩

theorem fomoMask_facts {r : FRow} (h : fomoMask r = true) :
    ∃ p v, r.pcp = some p ∧ r.vol = some v ∧ 2.5 < p ∧ 1.5 < r.vz ∧ 1.5 < v := by
  simp only [fomoMask, Bool.and_eq_true, decide_eq_true_eq] at h
  obtain ⟨⟨h1, h2⟩, h3⟩ := h
  obtain ⟨p, hp, hpgt⟩ := oGt_eq_true.mp h1
  obtain ⟨v, hv, hvgt⟩ := oGt_eq_true.mp h3
  exact ⟨p, v, hp, hv, hpgt, h2, hvgt⟩

theorem overMask_facts {r : FRow} (h : overMask r = true) :
    ∃ p v, r.pcp = some p ∧ r.vol = some v ∧ |p| < 1.0 ∧ 2.0 < r.vz ∧ 1.8 < v := by
  simp only [overMask, Bool.and_eq_true, decide_eq_true_eq] at h
  obtain ⟨⟨h1, h2⟩, h3⟩ := h
  obtain ⟨p, hp, hpabs⟩ := oAbsLt_eq_true.mp h1
  obtain ⟨v, hv, hvgt⟩ := oGt_eq_true.mp h3
  exact ⟨p, v, hp, hv, hpabs, h2, hvgt⟩

theorem panicScore_pos {r : FRow} (h : panicMask r = true) : 0 < panicScore r := by
  obtain ⟨p, v, hp, hv, hplt, hvz, hvgt⟩ := panicMask_facts h
  simp only [panicScore, hp, hv, Option.getD_some]
  have habs : (0:ℚ) ≤ |p| := abs_nonneg p
  have : (0:ℚ) < r.vz := by linarith
  have : (0:ℚ) < v := by linarith
  positivity

theorem fomoScore_pos {r : FRow} (h : fomoMask r = true) : 0 < fomoScore r := by
  obtain ⟨p, v, hp, hv, hpgt, hvz, hvgt⟩ := fomoMask_facts h
  simp only [fomoScore, hp, hv, Option.getD_some]
  have : (0:ℚ) < p := by linarith
  have : (0:ℚ) < r.vz := by linarith
  have : (0:ℚ) < v := by linarith
  positivity

theorem overScore_pos {r : FRow} (h : overMask r = true) : 0 < overScore r := by
  obtain ⟨p, v, hp, hv, hpabs, hvz, hvgt⟩ := overMask_facts h
  simp only [overScore, hp, hv, Option.getD_some]
  have : (0:ℚ) < r.vz := by linarith
  have : (0:ℚ) < v := by linarith
  positivity

/-- Rows with an undefined `Price_Change_Pct` or `Volatility` match no mask
and keep the initial `("Normal", 0)` assignment. -/
theorem boundary_row_normal (r : FRow) (h : r.pcp = none ∨ r.vol = none) :
    panicMask r = false ∧ fomoMask r = false ∧ overMask r = false ∧
      classifyRow r = ("Normal", 0) := by
  rcases h with h | h
  · refine ⟨?_, ?_, ?_, ?_⟩ <;>
      simp [panicMask, fomoMask, overMask, oLt, oGt, oAbsLt, h, classifyRow_cases]
  · refine ⟨?_, ?_, ?_, ?_⟩ <;>
      simp [panicMask, fomoMask, overMask, oLt, oGt, oAbsLt, h, classifyRow_cases]

/-- Every raw per-row score is non-negative, and a `Normal` row scores `0`. -/
theorem classifyRow_nonneg (r : FRow) :
    0 ≤ (classifyRow r).2 ∧ ((classifyRow r).1 = "Normal" → (classifyRow r).2 = 0) := by
  rw [classifyRow_cases]
  split_ifs with h1 h2 h3
  · exact ⟨le_of_lt (overScore_pos h1), fun h => absurd h (by simp)⟩
  · exact ⟨le_of_lt (fomoScore_pos h2), fun h => absurd h (by simp)⟩
  · exact ⟨le_of_lt (panicScore_pos h3), fun h => absurd h (by simp)⟩
  · exact ⟨le_refl 0, fun _ => rfl⟩

/-! ### Claim theorems about the behavior classifier -/

/-- **C2** Any row satisfying `Price_Change_Pct < -2.5`, `Volume_Zscore > 1.5`
and `Volatility > 2.0` is classified `Panic Selling` with raw confidence
`|Price_Change_Pct|/10 + Volume_Zscore/5 + Volatility/10`; in particular the
row `(-3.0, 2.0, 2.5)` gets raw confidence `0.95`. -/
theorem C2_panic_selling :
    (∀ (r : FRow) (p v : ℚ), r.pcp = some p → r.vol = some v →
        p < -2.5 → 1.5 < r.vz → 2.0 < v →
        classifyRow r = ("Panic Selling", |p| / 10 + r.vz / 5 + v / 10)) ∧
    classifyRow ⟨some (-3.0), 2.0, some 2.5⟩ = ("Panic Selling", 0.95) := by
  constructor
  · intro r p v hp hv h1 h2 h3
    have hpm : panicMask r = true := by
      simp only [panicMask, hp, hv, oLt, oGt, Bool.and_eq_true, decide_eq_true_eq]
      exact ⟨⟨h1, h2⟩, h3⟩
    have hfm : fomoMask r = false := by
      have h : ¬ (2.5:ℚ) < p := by linarith
      simp [fomoMask, oGt, hp, h]
    have hom : overMask r = false := by
      have h : ¬ |p| < (1.0:ℚ) := by
        rw [abs_lt]
        rintro ⟨a, b⟩
        linarith
      simp [overMask, oAbsLt, hp, h]
    rw [classifyRow_cases, hom, hfm, hpm]
    simp [panicScore, hp, hv]
  · with_unfolding_all rfl

/-- Witness for C2: the scenario row discharges every hypothesis. -/
theorem C2_panic_selling_witness :
    classifyRow ⟨some (-3.0), 2.0, some 2.5⟩ =
      ("Panic Selling", |(-3.0 : ℚ)| / 10 + 2.0 / 5 + 2.5 / 10) :=
  C2_panic_selling.1 ⟨some (-3.0), 2.0, some 2.5⟩ (-3.0) 2.5 rfl rfl
    (by norm_num) (by norm_num) (by norm_num)

/-- **C3** After batch normalisation every output row has a confidence score
in `[0, 100]`, and every row labeled `Normal` has score `0`. -/
theorem C3_confidence_bounds (rows : List FRow) (p : String × ℚ)
    (hp : p ∈ detect_investor_behavior rows) :
    0 ≤ p.2 ∧ p.2 ≤ 100 ∧ (p.1 = "Normal" → p.2 = 0) := by
  unfold detect_investor_behavior at hp
  have hq_facts : ∀ q ∈ rows.map classifyRow, 0 ≤ q.2 ∧ (q.1 = "Normal" → q.2 = 0) := by
    intro q hq
    obtain ⟨r, _, rfl⟩ := List.mem_map.mp hq
    exact classifyRow_nonneg r
  cases hms : (rows.map classifyRow).map Prod.snd with
  | nil =>
    simp only [maxScore, hms] at hp
    rcases List.map_eq_nil_iff.mp hms with h
    rw [h] at hp
    cases hp
  | cons x xs =>
    simp only [maxScore, hms] at hp
    by_cases hm : 0 < xs.foldl max x
    · rw [if_pos hm] at hp
      obtain ⟨q, hq, rfl⟩ := List.mem_map.mp hp
      obtain ⟨hq0, hqn⟩ := hq_facts q hq
      have hqmem : q.2 ∈ (rows.map classifyRow).map Prod.snd := List.mem_map_of_mem Prod.snd hq
      rw [hms] at hqmem
      have hqle : q.2 ≤ xs.foldl max x := by
        rcases List.mem_cons.mp hqmem with h | h
        · rw [h]
          exact le_foldl_max x xs
        · exact mem_le_foldl_max x h
      refine ⟨?_, ?_, ?_⟩
      · have : 0 ≤ q.2 / xs.foldl max x := div_nonneg hq0 (le_of_lt hm)
        simpa using mul_nonneg this (by norm_num : (0:ℚ) ≤ 100)
      · have h1 : q.2 / xs.foldl max x ≤ 1 := (div_le_one hm).mpr hqle
        calc q.2 / xs.foldl max x * 100 ≤ 1 * 100 :=
              mul_le_mul_of_nonneg_right h1 (by norm_num)
          _ = 100 := by norm_num
      · intro h
        rw [hqn h, zero_div, zero_mul]
    · rw [if_neg hm] at hp
      obtain ⟨hp0, hpn⟩ := hq_facts p hp
      have hpmem : p.2 ∈ (rows.map classifyRow).map Prod.snd := List.mem_map_of_mem Prod.snd hp
      rw [hms] at hpmem
      have hple : p.2 ≤ xs.foldl max x := by
        rcases List.mem_cons.mp hpmem with h | h
        · rw [h]
          exact le_foldl_max x xs
        · exact mem_le_foldl_max x h
      have hzero : p.2 = 0 := le_antisymm (le_trans hple (not_lt.mp hm)) hp0
      exact ⟨hp0, by rw [hzero]; norm_num, fun _ => hzero⟩

/-- Witness for C3 at a concrete one-row batch. -/
theorem C3_confidence_bounds_witness :
    0 ≤ (("Panic Selling", (100:ℚ)) : String × ℚ).2 ∧
      (("Panic Selling", (100:ℚ)) : String × ℚ).2 ≤ 100 ∧
      ((("Panic Selling", (100:ℚ)) : String × ℚ).1 = "Normal" →
        (("Panic Selling", (100:ℚ)) : String × ℚ).2 = 0) :=
  C3_confidence_bounds [⟨some (-3.0), 2.0, some 2.5⟩] ("Panic Selling", 100)
    (by
      have h : detect_investor_behavior [⟨some (-3.0), 2.0, some 2.5⟩] =
          [("Panic Selling", 100)] := by with_unfolding_all rfl
      rw [h]
      exact List.mem_singleton.mpr rfl)

/-- **C8** A row whose `Price_Change_Pct` or `Volatility` is undefined matches
none of the three rules and comes out of the classifier as
`("Normal", 0)` — both at the per-row stage and in the batch output. -/
theorem C8_undefined_features_normal :
    (∀ r : FRow, r.pcp = none ∨ r.vol = none →
        panicMask r = false ∧ fomoMask r = false ∧ overMask r = false ∧
          classifyRow r = ("Normal", 0)) ∧
    (∀ (rows : List FRow) (i : ℕ), i < rows.length →
        (rows.getD i ⟨none, 0, none⟩).pcp = none ∨
          (rows.getD i ⟨none, 0, none⟩).vol = none →
        (detect_investor_behavior rows).getD i ("", 37) = ("Normal", 0)) := by
  refine ⟨boundary_row_normal, ?_⟩
  intro rows i hi hnone
  rw [List.getD_eq_getElem _ _ hi] at hnone
  have hcls : classifyRow rows[i] = ("Normal", 0) :=
    (boundary_row_normal rows[i] hnone).2.2.2
  have hlen : i < (rows.map classifyRow).length := by simpa using hi
  have hsc : (rows.map classifyRow).getD i ("", 37) = ("Normal", 0) := by
    rw [List.getD_eq_getElem _ _ hlen, List.getElem_map]
    exact hcls
  unfold detect_investor_behavior
  cases hms : (rows.map classifyRow).map Prod.snd with
  | nil =>
    simp only [maxScore, hms]
    exact hsc
  | cons x xs =>
    simp only [maxScore, hms]
    by_cases hm : 0 < xs.foldl max x
    · rw [if_pos hm]
      have hlen2 : i < ((rows.map classifyRow).map
          (fun p => (p.1, p.2 / xs.foldl max x * 100))).length := by simpa using hi
      rw [List.getD_eq_getElem _ _ hlen2, List.getElem_map]
      rw [List.getD_eq_getElem _ _ hlen] at hsc
      rw [hsc]
      norm_num
    · rw [if_neg hm]
      exact hsc

/-- Witness for C8 at a concrete first row (no `Price_Change_Pct`). -/
theorem C8_undefined_features_normal_witness :
    classifyRow ⟨none, 5, some 3⟩ = ("Normal", 0) ∧
      (detect_investor_behavior [⟨none, 5, some 3⟩]).getD 0 ("", 37) = ("Normal", 0) :=
  ⟨(C8_undefined_features_normal.1 ⟨none, 5, some 3⟩ (Or.inl rfl)).2.2.2,
    C8_undefined_features_normal.2 [⟨none, 5, some 3⟩] 0 (by norm_num) (Or.inl rfl)⟩

/-- **C10** The three behavior predicates are pairwise incompatible (their
`Price_Change_Pct` conditions exclude each other), so evaluating the masked
assignments in any of the six orders yields the same `(label, score)` and no
non-`Normal` label is ever overwritten. -/
theorem C10_rules_mutually_exclusive (r : FRow) :
    ((panicMask r && fomoMask r) = false ∧ (panicMask r && overMask r) = false ∧
      (fomoMask r && overMask r) = false) ∧
    (applyRules [panicRule, overRule, fomoRule] r = classifyRow r ∧
      applyRules [fomoRule, panicRule, overRule] r = classifyRow r ∧
      applyRules [fomoRule, overRule, panicRule] r = classifyRow r ∧
      applyRules [overRule, panicRule, fomoRule] r = classifyRow r ∧
      applyRules [overRule, fomoRule, panicRule] r = classifyRow r) := by
  obtain ⟨pcp, vz, vol⟩ := r
  cases pcp with
  | none =>
    simp [panicMask, fomoMask, overMask, oLt, oGt, oAbsLt, classifyRow, applyRules,
      applyRule, panicRule, fomoRule, overRule]
  | some p =>
    by_cases hp1 : p < -2.5
    · have hp2 : ¬ (2.5:ℚ) < p := by linarith
      have hp3 : ¬ |p| < (1.0:ℚ) := by
        rw [abs_lt]
        rintro ⟨a, b⟩
        linarith
      simp [panicMask, fomoMask, overMask, oLt, oGt, oAbsLt, classifyRow, applyRules,
        applyRule, panicRule, fomoRule, overRule, hp1, hp2, hp3]
    · by_cases hp2 : (2.5:ℚ) < p
      · have hp3 : ¬ |p| < (1.0:ℚ) := by
          rw [abs_lt]
          rintro ⟨a, b⟩
          linarith
        simp [panicMask, fomoMask, overMask, oLt, oGt, oAbsLt, classifyRow, applyRules,
          applyRule, panicRule, fomoRule, overRule, hp1, hp2, hp3]
      · by_cases hp3 : |p| < (1.0:ℚ)
        · simp [panicMask, fomoMask, overMask, oLt, oGt, oAbsLt, classifyRow, applyRules,
            applyRule, panicRule, fomoRule, overRule, hp1, hp2, hp3]
        · simp [panicMask, fomoMask, overMask, oLt, oGt, oAbsLt, classifyRow, applyRules,
            applyRule, panicRule, fomoRule, overRule, hp1, hp2, hp3]

/-! ### Helper lemmas for the cleaning pipeline -/

theorem rowNulls_toRow (r : CRow) : rowNulls (toRow r) = 0 := rfl

theorem nullCount_map_toRow (df : List CRow) : nullCount (df.map toRow) = 0 := by
  induction df with
  | nil => rfl
  | cons r rs ih =>
    simp only [List.map_cons, nullCount, List.sum_cons, rowNulls_toRow] at ih ⊢
    simpa using ih

/-- On a frame with no missing cell, the quality score only deducts for the
duplicate and outlier counts of the report. -/
theorem calculate_quality_score_clean (df : List CRow) (rep : Report) :
    calculate_quality_score (df.map toRow) rep =
      if df.length = 0 then 100
      else max 0 (min 100 (100 -
        (rep.duplicatesRemoved : ℚ) / ((max rep.totalRowsOriginal 1 : ℕ) : ℚ) * 20 -
        (rep.outliersRemoved : ℚ) / ((max rep.totalRowsOriginal 1 : ℕ) : ℚ) * 15)) := by
  unfold calculate_quality_score
  rw [nullCount_map_toRow, List.length_map]
  split_ifs with h
  · rfl
  · norm_num

theorem dedupByDate_date_nodup (rs : List CRow) :
    ∀ seen : List ℤ, ((dedupByDate seen rs).map (fun r => r.date)).Nodup ∧
      ∀ d ∈ (dedupByDate seen rs).map (fun r => r.date), d ∉ seen := by
  induction rs with
  | nil => intro seen; simp [dedupByDate]
  | cons r rs ih =>
    intro seen
    by_cases h : r.date ∈ seen
    · simpa [dedupByDate, h] using ih seen
    · obtain ⟨ihn, ihs⟩ := ih (r.date :: seen)
      refine ⟨?_, ?_⟩
      · simp only [dedupByDate, h, if_false, List.map_cons, List.nodup_cons]
        refine ⟨fun hmem => ?_, ihn⟩
        exact (ihs _ hmem) (List.mem_cons_self _ _)
      · intro d hd
        simp only [dedupByDate, h, if_false, List.map_cons, List.mem_cons] at hd
        rcases hd with rfl | hd
        · exact h
        · intro hds
          exact (ihs _ hd) (List.mem_cons_of_mem _ hds)

theorem filter_enumFrom_map_snd_sublist {α : Type} (f : ℕ × α → Bool) :
    ∀ (n : ℕ) (l : List α), List.Sublist (((List.enumFrom n l).filter f).map Prod.snd) l := by
  intro n l
  induction l generalizing n with
  | nil => simp
  | cons a l ih =>
    rw [List.enumFrom, List.filter_cons]
    split_ifs with hf
    · exact List.Sublist.cons₂ a (ih (n + 1))
    · exact List.Sublist.cons a (ih (n + 1))

theorem remove_outliers_sublist (df : List CRow) (idxs : List ℕ) :
    List.Sublist (remove_outliers df idxs) df := by
  unfold remove_outliers
  exact filter_enumFrom_map_snd_sublist (fun p => !(idxs.contains p.1)) 0 df

theorem outlierStage_fst_sublist (flag : Bool) (df : List CRow) (rep : Report) :
    List.Sublist (outlierStage flag df rep).1 df := by
  simp only [outlierStage]
  split_ifs with h
  · exact remove_outliers_sublist df (detect_outliers df 3)
  · exact List.Sublist.refl df

/-- Sorting a frame whose dates are pairwise distinct yields strictly
ascending dates. -/
theorem sort_by_date_pairwise_lt (df : List CRow)
    (h : (df.map (fun r => r.date)).Nodup) :
    ((sort_by_date df).map (fun r => r.date)).Pairwise (· < ·) := by
  have hperm : (sort_by_date df).Perm df := List.perm_insertionSort dateLe df
  have hnodup : ((sort_by_date df).map (fun r => r.date)).Nodup :=
    ((hperm.map (fun r => r.date)).symm).nodup h
  have hsorted : List.Sorted dateLe (sort_by_date df) := List.sorted_insertionSort dateLe df
  have hle : ((sort_by_date df).map (fun r => r.date)).Pairwise (· ≤ ·) :=
    List.pairwise_map.mpr hsorted
  exact (hle.and hnodup).imp fun hab => lt_of_le_of_ne hab.1 hab.2

/-! ### Claim theorems about the cleaning pipeline -/

/-- **C4** For every input the cleaned output has unique, strictly ascending
`Date` values: de-duplication leaves pairwise distinct dates, outlier removal
keeps a sublist, and the final chronological sort orders them. -/
theorem C4_dates_strictly_ascending (flag : Bool) (orig : ℕ) (rs : List Row) :
    ((clean_pipeline flag orig rs).1.map (fun r => r.date)).Pairwise (· < ·) := by
  have h4 : (((handle_duplicates (handle_missing_values rs (initReport orig)).1
      (handle_missing_values rs (initReport orig)).2).1).map (fun r => r.date)).Nodup := by
    simp only [handle_duplicates]
    exact (dedupByDate_date_nodup _ []).1
  have h5 := outlierStage_fst_sublist flag
    (handle_duplicates (handle_missing_values rs (initReport orig)).1
      (handle_missing_values rs (initReport orig)).2).1
    (handle_duplicates (handle_missing_values rs (initReport orig)).1
      (handle_missing_values rs (initReport orig)).2).2
  have h5n := (h5.map (fun r => r.date)).nodup h4
  simp only [clean_pipeline]
  exact sort_by_date_pairwise_lt _ h5n

/-- **C1 (amended)** The pipeline's quality score is
`clamp₍₀,₁₀₀₎ (100 − 20·duplicates_removed/max(original_rows,1)
− 15·outliers_removed/max(original_rows,1))`: the missing-value deduction is
taken from the nulls of the *cleaned* frame, which the final `dropna` makes
`0`, not from the handled-missing count (an empty cleaned frame scores 100
through the pandas NaN path). -/
theorem C1_quality_score_amended (flag : Bool) (orig : ℕ) (rs : List Row) :
    (clean_pipeline flag orig rs).2.score =
      if (clean_pipeline flag orig rs).1.length = 0 then 100
      else max 0 (min 100 (100 -
        ((clean_pipeline flag orig rs).2.duplicatesRemoved : ℚ) /
          ((max (clean_pipeline flag orig rs).2.totalRowsOriginal 1 : ℕ) : ℚ) * 20 -
        ((clean_pipeline flag orig rs).2.outliersRemoved : ℚ) /
          ((max (clean_pipeline flag orig rs).2.totalRowsOriginal 1 : ℕ) : ℚ) * 15)) := by
  simp only [clean_pipeline]
  rw [calculate_quality_score_clean]

/-- **C1 (counterexample)** On a four-row input with one handled missing cell
the pipeline's score is `100`, while the spec's formula
`100 − 30·(1/24) = 98.75`; on the spec's own scenario numbers the code's
formula yields `98.55`, not `97.35`. -/
theorem C1_quality_score_counterexample :
    (clean_pipeline true 4 sampleC1).2.missingHandled = 1 ∧
      (clean_pipeline true 4 sampleC1).2.duplicatesRemoved = 0 ∧
      (clean_pipeline true 4 sampleC1).2.outliersRemoved = 0 ∧
      (clean_pipeline true 4 sampleC1).1.length = 4 ∧
      (clean_pipeline true 4 sampleC1).2.score = 100 ∧
      quality_score_spec 1 24 0 0 4 = 98.75 ∧
      ¬((100 : ℚ) = 98.75) ∧
      calculate_quality_score [toRow ⟨1, 1, 1, 1, 1, 1⟩] ⟨100, 97, 20, 20, 3, 3, 5, 5, 0⟩ = 98.55 ∧
      ¬((98.55 : ℚ) = 97.35) := by
  refine ⟨?_, ?_, ?_, ?_, ?_, ?_, ?_, ?_, ?_⟩
  · with_unfolding_all rfl
  · with_unfolding_all rfl
  · with_unfolding_all rfl
  · with_unfolding_all rfl
  · with_unfolding_all rfl
  · with_unfolding_all rfl
  · norm_num
  · with_unfolding_all rfl
  · norm_num

/-- A column flags a row exactly when its value leaves the IQR band. -/
theorem flaggedByCol_eq_true {df : List CRow} {k : ℚ} {f : CRow → ℚ} {i : ℕ} :
    flaggedByCol df k f i = true ↔
      ∃ q1 q3, quantileQ (df.map f) 0.25 = some q1 ∧ quantileQ (df.map f) 0.75 = some q3 ∧
        f (df.getD i default) ∉ Set.Icc (q1 - k * (q3 - q1)) (q3 + k * (q3 - q1)) := by
  unfold flaggedByCol
  cases h1 : quantileQ (df.map f) 0.25 with
  | none => simp [h1]
  | some q1 =>
    cases h2 : quantileQ (df.map f) 0.75 with
    | none => simp [h2]
    | some q3 =>
      simp only [h1, h2, Bool.or_eq_true, decide_eq_true_eq, Option.some.injEq,
        Set.mem_Icc, not_and_or, not_le]
      constructor
      · rintro (h | h)
        · exact ⟨q1, q3, rfl, rfl, Or.inl h⟩
        · exact ⟨q1, q3, rfl, rfl, Or.inr h⟩
      · rintro ⟨a, b, rfl, rfl, h | h⟩
        · exact Or.inl h
        · exact Or.inr h

/-- **C5** IQR outlier detection flags row `i` exactly when some OHLCV
column's value falls outside `[Q1 − k·IQR, Q3 + k·IQR]` for that column's
quartiles; on the ten-row scenario frame with `k = 3`, only row 4 is flagged
and removal leaves 9 rows. -/
theorem C5_iqr_outlier_detection :
    (∀ (df : List CRow) (k : ℚ) (i : ℕ),
        i ∈ detect_outliers df k ↔ i < df.length ∧ ∃ f ∈ colFuns,
          ∃ q1 q3, quantileQ (df.map f) 0.25 = some q1 ∧ quantileQ (df.map f) 0.75 = some q3 ∧
            f (df.getD i default) ∉ Set.Icc (q1 - k * (q3 - q1)) (q3 + k * (q3 - q1))) ∧
    detect_outliers sample10 3 = [4] ∧
    (remove_outliers sample10 (detect_outliers sample10 3)).length = 9 := by
  refine ⟨?_, by with_unfolding_all rfl, by with_unfolding_all rfl⟩
  intro df k i
  simp only [detect_outliers, List.mem_filter, List.mem_range, List.any_eq_true,
    flaggedByCol_eq_true]

/-- `ffill` of the `Close` column: the output cell is the input cell when
defined, else the last defined `Close` before it (seeded by the fill state). -/
theorem ffillRows_getD_close :
    ∀ (rs : List Row) (st : FState) (i : ℕ), i < rs.length →
      ((ffillRows st rs).getD i default).Close =
        ((rs.getD i default).Close).orElse
          fun _ => lastKnownFrom st.c ((rs.take i).map Row.Close) := by
  intro rs
  induction rs with
  | nil => intro st i hi; cases hi
  | cons r rs ih =>
    intro st i hi
    cases i with
    | zero => simp [ffillRows, lastKnownFrom]
    | succ i =>
      have hi' : i < rs.length := by simpa using hi
      simp only [ffillRows, List.getD_cons_succ, List.take_succ_cons, List.map_cons]
      rw [ih _ _ hi']
      simp [lastKnownFrom]

/-- `ffill` of the `Open` column. -/
theorem ffillRows_getD_open :
    ∀ (rs : List Row) (st : FState) (i : ℕ), i < rs.length →
      ((ffillRows st rs).getD i default).Open =
        ((rs.getD i default).Open).orElse
          fun _ => lastKnownFrom st.o ((rs.take i).map Row.Open) := by
  intro rs
  induction rs with
  | nil => intro st i hi; cases hi
  | cons r rs ih =>
    intro st i hi
    cases i with
    | zero => simp [ffillRows, lastKnownFrom]
    | succ i =>
      have hi' : i < rs.length := by simpa using hi
      simp only [ffillRows, List.getD_cons_succ, List.take_succ_cons, List.map_cons]
      rw [ih _ _ hi']
      simp [lastKnownFrom]

/-- `ffill` of the `High` column. -/
theorem ffillRows_getD_high :
    ∀ (rs : List Row) (st : FState) (i : ℕ), i < rs.length →
      ((ffillRows st rs).getD i default).High =
        ((rs.getD i default).High).orElse
          fun _ => lastKnownFrom st.h ((rs.take i).map Row.High) := by
  intro rs
  induction rs with
  | nil => intro st i hi; cases hi
  | cons r rs ih =>
    intro st i hi
    cases i with
    | zero => simp [ffillRows, lastKnownFrom]
    | succ i =>
      have hi' : i < rs.length := by simpa using hi
      simp only [ffillRows, List.getD_cons_succ, List.take_succ_cons, List.map_cons]
      rw [ih _ _ hi']
      simp [lastKnownFrom]

/-- `ffill` of the `Low` column. -/
theorem ffillRows_getD_low :
    ∀ (rs : List Row) (st : FState) (i : ℕ), i < rs.length →
      ((ffillRows st rs).getD i default).Low =
        ((rs.getD i default).Low).orElse
          fun _ => lastKnownFrom st.l ((rs.take i).map Row.Low) := by
  intro rs
  induction rs with
  | nil => intro st i hi; cases hi
  | cons r rs ih =>
    intro st i hi
    cases i with
    | zero => simp [ffillRows, lastKnownFrom]
    | succ i =>
      have hi' : i < rs.length := by simpa using hi
      simp only [ffillRows, List.getD_cons_succ, List.take_succ_cons, List.map_cons]
      rw [ih _ _ hi']
      simp [lastKnownFrom]

/-- The `dropna` of `handle_missing_values`: the surviving rows are exactly
the filled rows without a missing cell, kept verbatim and in order. -/
theorem filterMap_toCRow_map_toRow (l : List Row) :
    (l.filterMap toCRow).map toRow = l.filter fun r => decide (rowNulls r = 0) := by
  induction l with
  | nil => rfl
  | cons r rs ih =>
    obtain ⟨d, o, hh, lo, c, v⟩ := r
    cases d <;> cases o <;> cases hh <;> cases lo <;> cases c <;> cases v <;>
      simp [toCRow, toRow, rowNulls, List.filterMap_cons, List.filter_cons, ih]

/-- `Volume.fillna(0)`: the output volume is the input volume, or `0`. -/
theorem ffillRows_getD_volume :
    ∀ (rs : List Row) (st : FState) (i : ℕ), i < rs.length →
      ((ffillRows st rs).getD i default).Volume = some ((rs.getD i default).Volume.getD 0) := by
  intro rs
  induction rs with
  | nil => intro st i hi; cases hi
  | cons r rs ih =>
    intro st i hi
    cases i with
    | zero => simp [ffillRows]
    | succ i =>
      have hi' : i < rs.length := by simpa using hi
      simp only [ffillRows, List.getD_cons_succ]
      exact ih _ _ hi'

/-- **C6** Under `forward_fill`, a missing cell of each of
`Open, High, Low, Close` takes the last preceding defined value of its own
column, a defined cell is kept, missing `Volume` becomes `0`, and the
surviving rows are exactly the filled rows with no remaining missing value
(any row still containing one is removed); in the ten-row scenario the
missing `Close[2]` resolves to `Close[1] = 103`, and a first-row missing
price drops that row. -/
theorem C6_forward_fill :
    (∀ (rs : List Row) (i : ℕ), i < rs.length →
        (((rs.getD i default).Open = none →
            ((ffillRows ⟨none, none, none, none⟩ rs).getD i default).Open =
              lastKnown ((rs.take i).map Row.Open)) ∧
          ∀ v : ℚ, (rs.getD i default).Open = some v →
            ((ffillRows ⟨none, none, none, none⟩ rs).getD i default).Open = some v) ∧
        (((rs.getD i default).High = none →
            ((ffillRows ⟨none, none, none, none⟩ rs).getD i default).High =
              lastKnown ((rs.take i).map Row.High)) ∧
          ∀ v : ℚ, (rs.getD i default).High = some v →
            ((ffillRows ⟨none, none, none, none⟩ rs).getD i default).High = some v) ∧
        (((rs.getD i default).Low = none →
            ((ffillRows ⟨none, none, none, none⟩ rs).getD i default).Low =
              lastKnown ((rs.take i).map Row.Low)) ∧
          ∀ v : ℚ, (rs.getD i default).Low = some v →
            ((ffillRows ⟨none, none, none, none⟩ rs).getD i default).Low = some v) ∧
        (((rs.getD i default).Close = none →
            ((ffillRows ⟨none, none, none, none⟩ rs).getD i default).Close =
              lastKnown ((rs.take i).map Row.Close)) ∧
          ∀ v : ℚ, (rs.getD i default).Close = some v →
            ((ffillRows ⟨none, none, none, none⟩ rs).getD i default).Close = some v) ∧
        ((ffillRows ⟨none, none, none, none⟩ rs).getD i default).Volume =
          some ((rs.getD i default).Volume.getD 0)) ∧
    (∀ (rs : List Row) (rep : Report),
        (handle_missing_values rs rep).1.map toRow =
          (ffillRows ⟨none, none, none, none⟩ rs).filter fun r => decide (rowNulls r = 0)) ∧
    (sampleC6.getD 2 default).Close = none ∧
    (sampleC6.getD 1 default).Close = some 103 ∧
    ((handle_missing_values sampleC6 (initReport 10)).1.getD 2 default).Close = 103 ∧
    (handle_missing_values sampleC6 (initReport 10)).1.length = 10 ∧
    (handle_missing_values sampleDropFirst (initReport 3)).1.length = 2 ∧
    ((handle_missing_values sampleDropFirst (initReport 3)).1.getD 0 default).date = 1 := by
  refine ⟨?_, ?_, by with_unfolding_all rfl, by with_unfolding_all rfl,
    by with_unfolding_all rfl, by with_unfolding_all rfl, by with_unfolding_all rfl,
    by with_unfolding_all rfl⟩
  · intro rs i hi
    refine ⟨⟨?_, ?_⟩, ⟨?_, ?_⟩, ⟨?_, ?_⟩, ⟨?_, ?_⟩,
      ffillRows_getD_volume rs ⟨none, none, none, none⟩ i hi⟩
    · intro hnone
      rw [ffillRows_getD_open rs _ i hi, hnone]
      rfl
    · intro v hv
      rw [ffillRows_getD_open rs _ i hi, hv]
      rfl
    · intro hnone
      rw [ffillRows_getD_high rs _ i hi, hnone]
      rfl
    · intro v hv
      rw [ffillRows_getD_high rs _ i hi, hv]
      rfl
    · intro hnone
      rw [ffillRows_getD_low rs _ i hi, hnone]
      rfl
    · intro v hv
      rw [ffillRows_getD_low rs _ i hi, hv]
      rfl
    · intro hnone
      rw [ffillRows_getD_close rs _ i hi, hnone]
      rfl
    · intro v hv
      rw [ffillRows_getD_close rs _ i hi, hv]
      rfl
  · intro rs rep
    simp only [handle_missing_values]
    exact filterMap_toCRow_map_toRow _

/-- Witness for C6: concrete rows discharge the hypotheses of every
universally quantified part — a row missing all four price columns
(`samplePriceGaps[1]`), defined cells that are kept (`samplePriceGaps[0]`,
`sampleC6[1]`), the scenario's missing `Close`, and the `Volume` fill. -/
theorem C6_forward_fill_witness :
    ((ffillRows ⟨none, none, none, none⟩ samplePriceGaps).getD 1 default).Open =
        lastKnown ((samplePriceGaps.take 1).map Row.Open) ∧
      ((ffillRows ⟨none, none, none, none⟩ samplePriceGaps).getD 1 default).High =
        lastKnown ((samplePriceGaps.take 1).map Row.High) ∧
      ((ffillRows ⟨none, none, none, none⟩ samplePriceGaps).getD 1 default).Low =
        lastKnown ((samplePriceGaps.take 1).map Row.Low) ∧
      ((ffillRows ⟨none, none, none, none⟩ samplePriceGaps).getD 1 default).Close =
        lastKnown ((samplePriceGaps.take 1).map Row.Close) ∧
      ((ffillRows ⟨none, none, none, none⟩ samplePriceGaps).getD 0 default).Open = some 10 ∧
      ((ffillRows ⟨none, none, none, none⟩ samplePriceGaps).getD 0 default).High = some 12 ∧
      ((ffillRows ⟨none, none, none, none⟩ samplePriceGaps).getD 0 default).Low = some 9 ∧
      ((ffillRows ⟨none, none, none, none⟩ sampleC6).getD 2 default).Close =
        lastKnown ((sampleC6.take 2).map Row.Close) ∧
      ((ffillRows ⟨none, none, none, none⟩ sampleC6).getD 1 default).Close = some 103 ∧
      ((ffillRows ⟨none, none, none, none⟩ sampleC6).getD 0 default).Volume =
        some ((sampleC6.getD 0 default).Volume.getD 0) :=
  ⟨((C6_forward_fill.1 samplePriceGaps 1 (by norm_num [samplePriceGaps])).1).1
      (by with_unfolding_all rfl),
    ((C6_forward_fill.1 samplePriceGaps 1 (by norm_num [samplePriceGaps])).2.1).1
      (by with_unfolding_all rfl),
    ((C6_forward_fill.1 samplePriceGaps 1 (by norm_num [samplePriceGaps])).2.2.1).1
      (by with_unfolding_all rfl),
    ((C6_forward_fill.1 samplePriceGaps 1 (by norm_num [samplePriceGaps])).2.2.2.1).1
      (by with_unfolding_all rfl),
    ((C6_forward_fill.1 samplePriceGaps 0 (by norm_num [samplePriceGaps])).1).2 10
      (by with_unfolding_all rfl),
    ((C6_forward_fill.1 samplePriceGaps 0 (by norm_num [samplePriceGaps])).2.1).2 12
      (by with_unfolding_all rfl),
    ((C6_forward_fill.1 samplePriceGaps 0 (by norm_num [samplePriceGaps])).2.2.1).2 9
      (by with_unfolding_all rfl),
    ((C6_forward_fill.1 sampleC6 2 (by norm_num [sampleC6])).2.2.2.1).1
      (by with_unfolding_all rfl),
    ((C6_forward_fill.1 sampleC6 1 (by norm_num [sampleC6])).2.2.2.1).2 103
      (by with_unfolding_all rfl),
    (C6_forward_fill.1 sampleC6 0 (by norm_num [sampleC6])).2.2.2.2⟩

/-- Sum of squared deviations vanishes only when every sample equals `m`. -/
theorem sum_sq_eq_zero {m : ℚ} :
    ∀ {l : List ℚ}, ((l.map fun x => (x - m) ^ 2).sum = 0) → ∀ x ∈ l, x = m := by
  intro l
  induction l with
  | nil => intro _ x hx; cases hx
  | cons y ys ih =>
    intro h x hx
    rw [List.map_cons, List.sum_cons] at h
    have h1 : (0:ℚ) ≤ (y - m) ^ 2 := sq_nonneg _
    have h2 : (0:ℚ) ≤ (ys.map fun x => (x - m) ^ 2).sum := by
      apply List.sum_nonneg
      intro z hz
      obtain ⟨w, _, rfl⟩ := List.mem_map.mp hz
      exact sq_nonneg _
    obtain ⟨hy, hrest⟩ := (add_eq_zero_iff_of_nonneg h1 h2).mp h
    rcases List.mem_cons.mp hx with rfl | hx'
    · exact sub_eq_zero.mp (sq_eq_zero_iff.mp hy)
    · exact ih hrest x hx'

/-- Row `t`'s volume belongs to its own rolling window. -/
theorem getD_mem_rollWindow {vols : List ℚ} {t : ℕ} (ht : t < vols.length) :
    vols.getD t 0 ∈ rollWindow vols t := by
  rw [List.getD_eq_getElem _ _ ht, List.mem_iff_getElem]
  have hlen : (rollWindow vols t).length = (t + 1) - (t + 1 - 20) := by
    unfold rollWindow
    rw [List.length_drop, List.length_take]
    have hmin : (t + 1) ⊓ vols.length = t + 1 := min_eq_left (by omega)
    rw [hmin]
  refine ⟨t - (t + 1 - 20), by omega, ?_⟩
  unfold rollWindow
  rw [List.getElem_drop]
  have hidx : (t + 1 - 20) + (t - (t + 1 - 20)) = t := by omega
  simp only [hidx, List.getElem_take]

/-- **C7** For every row of the series, the `Volume_Zscore` column is finite:
the undefined cases of `(Volume − Volume_Mean) / Volume_Std` — a one-sample
window (NaN std) and a zero std, whose numerator is then forced to zero — all
come out of `fillna(0)` as the finite value `0`, and no infinity arises. -/
theorem C7_volume_zscore_finite (vols : List ℚ) (t : ℕ) (ht : t < vols.length) :
    (volume_zscore vols t).isFinite = true ∧
      (volume_zscore_raw vols t = PF.nan → volume_zscore vols t = PF.fin 0 1) := by
  constructor
  · unfold volume_zscore volume_zscore_raw
    cases hv : volume_var vols t with
    | none => simp [PF.isFinite]
    | some var =>
      unfold volume_var at hv
      by_cases hlen : (rollWindow vols t).length < 2
      · rw [if_pos hlen] at hv
        cases hv
      · rw [if_neg hlen] at hv
        injection hv with hv
        by_cases hvar : var = 0
        · have hnumer : vols.getD t 0 - wmean (rollWindow vols t) = 0 := by
            have hden : ((rollWindow vols t).length : ℚ) - 1 ≠ 0 := by
              have : 2 ≤ (rollWindow vols t).length := not_lt.mp hlen
              have h2 : (2:ℚ) ≤ ((rollWindow vols t).length : ℚ) := by exact_mod_cast this
              intro hzero
              have : ((rollWindow vols t).length : ℚ) = 1 := by linarith
              linarith
            have hnum0 : wvarNum (rollWindow vols t) = 0 := by
              rcases div_eq_zero_iff.mp (hv ▸ hvar : wvarNum (rollWindow vols t) /
                  (((rollWindow vols t).length : ℚ) - 1) = 0) with h | h
              · exact h
              · exact absurd h hden
            have hall := sum_sq_eq_zero (l := rollWindow vols t) (m := wmean (rollWindow vols t)) hnum0
            have := hall (vols.getD t 0) (getD_mem_rollWindow ht)
            rw [this]
            ring
          have hnumer2 : vols[t]?.getD 0 - wmean (rollWindow vols t) = 0 := by
            rw [← List.getD_eq_getElem?_getD]
            exact hnumer
          simp [hvar, hnumer, hnumer2, PF.isFinite]
        · simp [hvar, PF.isFinite]
  · intro h
    unfold volume_zscore
    rw [h]

/-- Witness for C7: a two-row constant-volume series (zero variance, hence a
`0/0` float NaN resolved to `0`). -/
theorem C7_volume_zscore_finite_witness :
    (volume_zscore [5, 5] 1).isFinite = true ∧
      (volume_zscore_raw [5, 5] 1 = PF.nan → volume_zscore [5, 5] 1 = PF.fin 0 1) :=
  C7_volume_zscore_finite [5, 5] 1 (by norm_num)

/-- **C9** The price-logic validator mutates nothing and halts nothing: the
pipeline computes exactly what it computes with the validation stage deleted,
the validator only returns a list drawn from the four issue messages, and a
frame that violates `High ≥ Low` still flows through to the cleaned output. -/
theorem C9_price_logic_validator_pure :
    (∀ (flag : Bool) (orig : ℕ) (rs : List Row),
        clean_pipeline flag orig rs = clean_pipeline_no_validate flag orig rs) ∧
    (∀ df : List CRow, (validate_price_logic df).2 ⊆ [msgHL df, msgClose df, msgOpen df, msgVol df]) ∧
    validate_price_logic badSample =
      (false, ["High < Low in 2 rows", "Close outside High-Low range in 2 rows",
        "Open outside High-Low range in 2 rows"]) ∧
    (clean_pipeline true 2 (badSample.map toRow)).1.length = 2 := by
  refine ⟨fun flag orig rs => rfl, ?_, by with_unfolding_all rfl, by with_unfolding_all rfl⟩
  intro df x hx
  simp only [validate_price_logic, priceIssues, List.mem_append] at hx
  simp only [List.mem_cons, List.not_mem_nil, or_false]
  rcases hx with ((hx | hx) | hx) | hx <;> split_ifs at hx <;>
    simp only [List.mem_singleton, List.not_mem_nil] at hx <;> tauto

end StockAnalysis
